import Mathlib

/-!
Verification development for the lwcell MQTT client engine.

The repository ships the public header (state enum, QoS enum, request
structure, event types and the operation signatures) but not the engine
implementation itself, so the packet codec, the request table, the
timeout policy, the inbound QoS-2 handshake and the connection state
machine below are modelled from the specification text and settled
against that model.
-/

namespace LwcellMqtt

/-! ## Packet codec: MQTT remaining-length variable-length integer -/

/-- Modelled from the spec: MQTT remaining-length field, a 1-4 byte
variable-length integer, 7 bits per byte, continuation bit set on all
but the last byte. -/
def encodeRemLen (n : Nat) : List Nat :=
  if n < 128 then [n]
  else if n < 16384 then [n % 128 + 128, n / 128]
  else if n < 2097152 then [n % 128 + 128, n / 128 % 128 + 128, n / 16384]
  else [n % 128 + 128, n / 128 % 128 + 128, n / 16384 % 128 + 128, n / 2097152]

/-- Outcome of reading a remaining-length field from the buffer head:
more bytes are needed, the field is malformed (continuation bit still
set on the fourth byte), or a value together with the bytes consumed. -/
inductive RemLenResult where
  | needMore : RemLenResult
  | malformed : RemLenResult
  | ok (value : Nat) (consumed : Nat) : RemLenResult
  deriving DecidableEq

/-- Modelled from the spec: resumable reader of the 1-4 byte
remaining-length integer. -/
def decodeRemLen : List Nat → RemLenResult
  | [] => .needMore
  | b0 :: r0 =>
    if b0 < 128 then .ok b0 1
    else
      match r0 with
      | [] => .needMore
      | b1 :: r1 =>
        if b1 < 128 then .ok (b0 % 128 + 128 * b1) 2
        else
          match r1 with
          | [] => .needMore
          | b2 :: r2 =>
            if b2 < 128 then .ok (b0 % 128 + 128 * (b1 % 128) + 16384 * b2) 3
            else
              match r2 with
              | [] => .needMore
              | b3 :: _ =>
                if b3 < 128 then
                  .ok (b0 % 128 + 128 * (b1 % 128) + 16384 * (b2 % 128) + 2097152 * b3) 4
                else .malformed

/-! ## Packet codec: frames -/

/-- Modelled from the spec: a length-prefixed string field (topic
strings and client id are length-prefixed UTF-8), two length bytes,
most significant first, followed by the bytes. -/
def str16 (s : List Nat) : List Nat :=
  s.length / 256 :: s.length % 256 :: s

/-- Modelled from the spec: read one length-prefixed string field,
returning the string and the remaining bytes. -/
def parseStr16 : List Nat → Option (List Nat × List Nat)
  | a :: b :: rest =>
    if rest.length < 256 * a + b then none
    else some (rest.take (256 * a + b), rest.drop (256 * a + b))
  | _ => none

/-- Modelled from the spec: the MQTT control packets the codec handles
(CONNECT, CONNACK, PUBLISH, PUBACK, PUBREC, PUBREL, PUBCOMP, SUBSCRIBE,
SUBACK, UNSUBSCRIBE, UNSUBACK, PINGREQ, PINGRESP, DISCONNECT).
Packet id 0 is reserved as no-id and is used for QoS-0 publishes. -/
inductive Packet where
  | connect (clientId : List Nat) (keepAlive : Nat) : Packet
  | connack (status : Nat) : Packet
  | publish (dup : Bool) (qos : Nat) (retain : Bool)
      (topic : List Nat) (pid : Nat) (payload : List Nat) : Packet
  | puback (pid : Nat) : Packet
  | pubrec (pid : Nat) : Packet
  | pubrel (pid : Nat) : Packet
  | pubcomp (pid : Nat) : Packet
  | subscribe (pid : Nat) (topic : List Nat) (qos : Nat) : Packet
  | suback (pid : Nat) (granted : Nat) : Packet
  | unsubscribe (pid : Nat) (topic : List Nat) : Packet
  | unsuback (pid : Nat) : Packet
  | pingreq : Packet
  | pingresp : Packet
  | disconnect : Packet
  deriving DecidableEq

/-- The 4-bit control-packet type nibble of the fixed header. -/
def pktType : Packet → Nat
  | .connect _ _ => 1
  | .connack _ => 2
  | .publish _ _ _ _ _ _ => 3
  | .puback _ => 4
  | .pubrec _ => 5
  | .pubrel _ => 6
  | .pubcomp _ => 7
  | .subscribe _ _ _ => 8
  | .suback _ _ => 9
  | .unsubscribe _ _ => 10
  | .unsuback _ => 11
  | .pingreq => 12
  | .pingresp => 13
  | .disconnect => 14

/-- The 4-bit flags nibble of the fixed header: PUBLISH carries
dup, qos and retain; PUBREL, SUBSCRIBE and UNSUBSCRIBE use 2. -/
def pktFlags : Packet → Nat
  | .publish dup qos retain _ _ _ =>
      (if dup then 8 else 0) + 2 * qos + (if retain then 1 else 0)
  | .pubrel _ => 2
  | .subscribe _ _ _ => 2
  | .unsubscribe _ _ => 2
  | _ => 0

/-- The two big-endian bytes of a 16-bit value (packet id, keep-alive). -/
def be16 (v : Nat) : List Nat := [v / 256, v % 256]

/-- Modelled from the spec: the variable header and payload of each
packet kind. A publish packet carries its packet id on the wire only
for QoS above 0; the publish payload length is not written inline, it
is recovered from the remaining length. -/
def pktBody : Packet → List Nat
  | .connect clientId keepAlive => be16 keepAlive ++ str16 clientId
  | .connack status => [status]
  | .publish _ qos _ topic pid payload =>
      str16 topic ++ (if qos = 0 then [] else be16 pid) ++ payload
  | .puback pid => be16 pid
  | .pubrec pid => be16 pid
  | .pubrel pid => be16 pid
  | .pubcomp pid => be16 pid
  | .subscribe pid topic qos => be16 pid ++ str16 topic ++ [qos]
  | .suback pid granted => be16 pid ++ [granted]
  | .unsubscribe pid topic => be16 pid ++ str16 topic
  | .unsuback pid => be16 pid
  | .pingreq => []
  | .pingresp => []
  | .disconnect => []

/-- Modelled from the spec: frame encoder. Fixed header byte (4-bit
type nibble and 4-bit flags), then the remaining length as a 1-4 byte
variable-length integer, then the body. -/
def encode (p : Packet) : List Nat :=
  (16 * pktType p + pktFlags p) :: encodeRemLen (pktBody p).length ++ pktBody p

/-- Modelled from the spec: parse the body of one packet, given the
type nibble and flags from the fixed header. Returns none on a
malformed body (a protocol error). -/
def decodeBody (ptype flags : Nat) (body : List Nat) : Option Packet :=
  match ptype with
  | 1 =>
    if flags = 0 then
      match body with
      | kh :: kl :: rest =>
        match parseStr16 rest with
        | some (cid, tail) => if tail = [] then some (.connect cid (256 * kh + kl)) else none
        | none => none
      | _ => none
    else none
  | 2 =>
    if flags = 0 then
      match body with
      | [status] => some (.connack status)
      | _ => none
    else none
  | 3 =>
    let qos := flags / 2 % 4
    if qos ≥ 3 then none
    else
      match parseStr16 body with
      | some (topic, rest) =>
        if qos = 0 then
          some (.publish (flags / 8 = 1) 0 (flags % 2 = 1) topic 0 rest)
        else
          match rest with
          | ph :: pl :: payload =>
            some (.publish (flags / 8 = 1) qos (flags % 2 = 1) topic (256 * ph + pl) payload)
          | _ => none
      | none => none
  | 4 =>
    if flags = 0 then
      match body with
      | [ph, pl] => some (.puback (256 * ph + pl))
      | _ => none
    else none
  | 5 =>
    if flags = 0 then
      match body with
      | [ph, pl] => some (.pubrec (256 * ph + pl))
      | _ => none
    else none
  | 6 =>
    if flags = 2 then
      match body with
      | [ph, pl] => some (.pubrel (256 * ph + pl))
      | _ => none
    else none
  | 7 =>
    if flags = 0 then
      match body with
      | [ph, pl] => some (.pubcomp (256 * ph + pl))
      | _ => none
    else none
  | 8 =>
    if flags = 2 then
      match body with
      | ph :: pl :: rest =>
        match parseStr16 rest with
        | some (topic, [q]) => some (.subscribe (256 * ph + pl) topic q)
        | _ => none
      | _ => none
    else none
  | 9 =>
    if flags = 0 then
      match body with
      | [ph, pl, granted] => some (.suback (256 * ph + pl) granted)
      | _ => none
    else none
  | 10 =>
    if flags = 2 then
      match body with
      | ph :: pl :: rest =>
        match parseStr16 rest with
        | some (topic, tail) =>
          if tail = [] then some (.unsubscribe (256 * ph + pl) topic) else none
        | none => none
      | _ => none
    else none
  | 11 =>
    if flags = 0 then
      match body with
      | [ph, pl] => some (.unsuback (256 * ph + pl))
      | _ => none
    else none
  | 12 => if flags = 0 ∧ body = [] then some .pingreq else none
  | 13 => if flags = 0 ∧ body = [] then some .pingresp else none
  | 14 => if flags = 0 ∧ body = [] then some .disconnect else none
  | _ => none

/-- Outcome of one decode attempt on the RX buffer: more bytes are
needed (nothing is consumed), a protocol error was detected (fatal),
or a parsed frame together with the number of bytes it consumed. -/
inductive DecodeResult where
  | needMore : DecodeResult
  | protoError : DecodeResult
  | ok (p : Packet) (consumed : Nat) : DecodeResult
  deriving DecidableEq

/-- Modelled from the spec: resumable frame decoder over the RX
buffer. An incomplete frame yields needMore and consumes nothing; an
invalid type nibble or malformed field is a protocol error. -/
def try_decode (bs : List Nat) : DecodeResult :=
  match bs with
  | [] => .needMore
  | h :: t =>
    if h / 16 = 0 ∨ h / 16 = 15 then .protoError
    else
      match decodeRemLen t with
      | .needMore => .needMore
      | .malformed => .protoError
      | .ok rem nl =>
        if bs.length < 1 + nl + rem then .needMore
        else
          match decodeBody (h / 16) (h % 16) ((t.drop nl).take rem) with
          | some p => .ok p (1 + nl + rem)
          | none => .protoError

/-- Well-formedness of a packet: field widths fit their wire encoding
(strings and the publish payload are bounded by 16-bit lengths, packet
ids and keep-alive are 16-bit, qos is 0-2, a QoS-0 publish carries
packet id 0, single-byte codes fit one byte). -/
def wfPacket : Packet → Prop
  | .connect clientId keepAlive => clientId.length < 65536 ∧ keepAlive < 65536
  | .connack status => status < 256
  | .publish _ qos _ topic pid payload =>
      qos < 3 ∧ (qos = 0 → pid = 0) ∧ topic.length < 65536 ∧ pid < 65536 ∧
        payload.length < 65536
  | .puback pid => pid < 65536
  | .pubrec pid => pid < 65536
  | .pubrel pid => pid < 65536
  | .pubcomp pid => pid < 65536
  | .subscribe pid topic qos => pid < 65536 ∧ topic.length < 65536 ∧ qos < 3
  | .suback pid granted => pid < 65536 ∧ granted < 256
  | .unsubscribe pid topic => pid < 65536 ∧ topic.length < 65536
  | .unsuback pid => pid < 65536
  | .pingreq => True
  | .pingresp => True
  | .disconnect => True

instance : DecidablePred wfPacket := by
  intro p
  cases p <;> simp only [wfPacket] <;> infer_instance

/-- Modelled from the spec: the incremental decode loop. Bytes arrive
in chunks; each delivery is appended to the RX buffer and a decode is
attempted; while the decoder reports needMore the buffer is kept
intact and the loop waits for the next delivery. -/
def runIncremental (acc : List Nat) : List (List Nat) → DecodeResult
  | [] => try_decode acc
  | c :: cs =>
    match try_decode (acc ++ c) with
    | .needMore => runIncremental (acc ++ c) cs
    | r => r

/-! ## Client data model (enums from the source header) -/

/-- State of the MQTT client, from the source header
(lwcell_mqtt_state_t in lwcell_mqtt_client.h). -/
inductive lwcell_mqtt_state_t where
  | LWCELL_MQTT_CONN_DISCONNECTED : lwcell_mqtt_state_t
  | LWCELL_MQTT_CONN_CONNECTING : lwcell_mqtt_state_t
  | LWCELL_MQTT_CONN_DISCONNECTING : lwcell_mqtt_state_t
  | LWCELL_MQTT_CONNECTING : lwcell_mqtt_state_t
  | LWCELL_MQTT_CONNECTED : lwcell_mqtt_state_t
  deriving DecidableEq, Fintype

/-- Quality of service, from the source header (lwcell_mqtt_qos_t). -/
inductive lwcell_mqtt_qos_t where
  | LWCELL_MQTT_QOS_AT_MOST_ONCE : lwcell_mqtt_qos_t
  | LWCELL_MQTT_QOS_AT_LEAST_ONCE : lwcell_mqtt_qos_t
  | LWCELL_MQTT_QOS_EXACTLY_ONCE : lwcell_mqtt_qos_t
  deriving DecidableEq

/-- The wire value of a QoS level (0, 1 or 2 from the header). -/
def qosToNat : lwcell_mqtt_qos_t → Nat
  | .LWCELL_MQTT_QOS_AT_MOST_ONCE => 0
  | .LWCELL_MQTT_QOS_AT_LEAST_ONCE => 1
  | .LWCELL_MQTT_QOS_EXACTLY_ONCE => 2

/-- Modelled from the spec: the synchronous result of a client call
(the implementation with its lwcellr_t values is not in the sources,
only the error taxonomy of the spec: ok, InvalidState, Busy). -/
inductive lwcellr_t where
  | ok : lwcellr_t
  | invalidState : lwcellr_t
  | busy : lwcellr_t
  deriving DecidableEq

/-- Events delivered through the single user callback, following the
event kinds of the header (lwcell_mqtt_evt_type_t and
lwcell_mqtt_evt_t). The connect event carries the CONNACK status code,
with 256 the distinguished transport-failed value
(LWCELL_MQTT_CONN_STATUS_TCP_FAILED = 0x100 in the header). -/
inductive MqttEvt where
  | evtConnect (status : Nat) : MqttEvt
  | evtSubscribe (arg : Nat) (success : Bool) : MqttEvt
  | evtUnsubscribe (arg : Nat) (success : Bool) : MqttEvt
  | evtPublish (arg : Nat) (success : Bool) : MqttEvt
  | evtPublishRecv (pid : Nat) (dup : Bool) : MqttEvt
  | evtDisconnect (is_accepted : Bool) : MqttEvt
  | evtKeepAlive : MqttEvt
  deriving DecidableEq

/-- Modelled from the spec: per-request retry state, an explicit small
enum so the at-most-one-retry invariant is visible. -/
inductive RetryState where
  | unsent : RetryState
  | sent : RetryState
  | retried : RetryState
  deriving DecidableEq

/-- Modelled from the spec and the header request struct
(lwcell_mqtt_request_t): one slot of the bounded request table.
The status field is the in-use flag; the stored packet allows the
timeout policy to re-send the frame. -/
structure lwcell_mqtt_request_t where
  status : Bool
  packet_id : Nat
  arg : Nat
  expected_sent_len : Nat
  timeout_start_time : Nat
  retry : RetryState
  pkt : Packet
  deriving DecidableEq

/-- Modelled from the spec: the client object (the header keeps the
struct opaque): connection state, bounded request table, last
generated packet id, TX buffer and keep-alive interval. -/
structure lwcell_mqtt_client where
  conn_state : lwcell_mqtt_state_t
  requests : List lwcell_mqtt_request_t
  last_packet_id : Nat
  tx_buffer : List Nat
  keep_alive : Nat
  deriving DecidableEq

/-- The packet ids of the currently-allocated requests of a table. -/
def allocIdsL (reqs : List lwcell_mqtt_request_t) : List Nat :=
  (reqs.filter (fun r => r.status)).map (fun r => r.packet_id)

/-- The packet ids of the currently-allocated requests of a client. -/
def allocatedIds (c : lwcell_mqtt_client) : List Nat :=
  allocIdsL c.requests

/-- Every slot of the request table is occupied. -/
def requestTableFull (c : lwcell_mqtt_client) : Bool :=
  c.requests.all (fun r => r.status)

/-- Store a request in the first free slot of the table. -/
def setFirstFree (reqs : List lwcell_mqtt_request_t)
    (r : lwcell_mqtt_request_t) : List lwcell_mqtt_request_t :=
  match reqs with
  | [] => []
  | x :: xs => if x.status then x :: setFirstFree xs r else r :: xs

/-! ## Packet-id generator -/

/-- Modelled from the spec: candidate scan of the packet-id generator,
bounded by fuel so exhaustion is an explicit signal. -/
def genLoop (cand : Nat) (alloc : List Nat) : Nat → Option Nat
  | 0 => none
  | fuel + 1 =>
    if cand ≠ 0 ∧ cand ∉ alloc then some cand
    else genLoop ((cand + 1) % 65536) alloc fuel

/-- Modelled from the spec: packet-id generation. The next candidate
is (last + 1) mod 65536; 0 is skipped (reserved as no-id, used for
QoS-0 publishes); a candidate that collides with an already-allocated
id makes the generator advance again; if no id is free the generator
reports exhaustion. -/
def genPacketId (last : Nat) (alloc : List Nat) : Option Nat :=
  genLoop ((last + 1) % 65536) alloc 65536

/-! ## Client operations -/

/-- Modelled from the spec: connect fails with InvalidState if the
client state is not DISCONNECTED and raises no event; otherwise it
opens the transport and enters the transport-connecting state. -/
def lwcell_mqtt_client_connect (c : lwcell_mqtt_client) :
    lwcellr_t × lwcell_mqtt_client × List MqttEvt :=
  if c.conn_state ≠ .LWCELL_MQTT_CONN_DISCONNECTED then (.invalidState, c, [])
  else (.ok, { c with conn_state := .LWCELL_MQTT_CONN_CONNECTING }, [])

/-- Modelled from the spec: subscribe fails with InvalidState unless
CONNECTED, with Busy when the request table is full or the id space is
exhausted; otherwise it allocates a request slot keyed by a fresh
packet id and appends the SUBSCRIBE frame to the TX buffer. -/
def lwcell_mqtt_client_subscribe (c : lwcell_mqtt_client) (topic : List Nat)
    (qos : lwcell_mqtt_qos_t) (arg : Nat) (now : Nat) :
    lwcellr_t × lwcell_mqtt_client × List MqttEvt :=
  if c.conn_state ≠ .LWCELL_MQTT_CONNECTED then (.invalidState, c, [])
  else if requestTableFull c then (.busy, c, [])
  else
    match genPacketId c.last_packet_id (allocatedIds c) with
    | none => (.busy, c, [])
    | some pid =>
      let pkt : Packet := .subscribe pid topic (qosToNat qos)
      let frame := encode pkt
      let r : lwcell_mqtt_request_t :=
        { status := true, packet_id := pid, arg := arg,
          expected_sent_len := frame.length, timeout_start_time := now,
          retry := .sent, pkt := pkt }
      (.ok, { c with requests := setFirstFree c.requests r,
                     last_packet_id := pid,
                     tx_buffer := c.tx_buffer ++ frame }, [])

/-- Modelled from the spec: unsubscribe fails with InvalidState unless
CONNECTED, with Busy when the table is full; otherwise it allocates a
slot and appends the UNSUBSCRIBE frame to the TX buffer. -/
def lwcell_mqtt_client_unsubscribe (c : lwcell_mqtt_client) (topic : List Nat)
    (arg : Nat) (now : Nat) :
    lwcellr_t × lwcell_mqtt_client × List MqttEvt :=
  if c.conn_state ≠ .LWCELL_MQTT_CONNECTED then (.invalidState, c, [])
  else if requestTableFull c then (.busy, c, [])
  else
    match genPacketId c.last_packet_id (allocatedIds c) with
    | none => (.busy, c, [])
    | some pid =>
      let pkt : Packet := .unsubscribe pid topic
      let frame := encode pkt
      let r : lwcell_mqtt_request_t :=
        { status := true, packet_id := pid, arg := arg,
          expected_sent_len := frame.length, timeout_start_time := now,
          retry := .sent, pkt := pkt }
      (.ok, { c with requests := setFirstFree c.requests r,
                     last_packet_id := pid,
                     tx_buffer := c.tx_buffer ++ frame }, [])

/-- Modelled from the spec: publish. InvalidState unless CONNECTED.
A QoS-0 publish is fire-and-forget: the frame is encoded directly
with packet id 0, no request slot is taken and no event is raised.
A QoS 1/2 publish needs a slot: Busy when the table is full, else the
slot is allocated and the frame appended to the TX buffer. -/
def lwcell_mqtt_client_publish (c : lwcell_mqtt_client) (topic payload : List Nat)
    (qos : lwcell_mqtt_qos_t) (retain : Bool) (arg : Nat) (now : Nat) :
    lwcellr_t × lwcell_mqtt_client × List MqttEvt :=
  if c.conn_state ≠ .LWCELL_MQTT_CONNECTED then (.invalidState, c, [])
  else if qos = .LWCELL_MQTT_QOS_AT_MOST_ONCE then
    (.ok, { c with tx_buffer :=
              c.tx_buffer ++ encode (.publish false 0 retain topic 0 payload) }, [])
  else if requestTableFull c then (.busy, c, [])
  else
    match genPacketId c.last_packet_id (allocatedIds c) with
    | none => (.busy, c, [])
    | some pid =>
      let pkt : Packet := .publish false (qosToNat qos) retain topic pid payload
      let frame := encode pkt
      let r : lwcell_mqtt_request_t :=
        { status := true, packet_id := pid, arg := arg,
          expected_sent_len := frame.length, timeout_start_time := now,
          retry := .sent, pkt := pkt }
      (.ok, { c with requests := setFirstFree c.requests r,
                     last_packet_id := pid,
                     tx_buffer := c.tx_buffer ++ frame }, [])

/-- Modelled from the spec: nonzero exactly when the client is in the
fully-connected MQTT state. -/
def lwcell_mqtt_client_is_connected (c : lwcell_mqtt_client) : Nat :=
  if c.conn_state = .LWCELL_MQTT_CONNECTED then 1 else 0

/-- Release the slot holding a given allocated packet id. -/
def releaseSlot (reqs : List lwcell_mqtt_request_t) (pid : Nat) :
    List lwcell_mqtt_request_t :=
  reqs.map (fun r => if r.status ∧ r.packet_id = pid then { r with status := false } else r)

/-- Modelled from the spec: resolution of a PUBACK by packet id. Only
a currently-allocated request raises the publish-confirmation event;
an id that matches no allocated slot raises nothing. -/
def process_puback (c : lwcell_mqtt_client) (pid : Nat) :
    lwcell_mqtt_client × List MqttEvt :=
  match c.requests.find? (fun r => r.status ∧ r.packet_id = pid) with
  | some r => ({ c with requests := releaseSlot c.requests pid }, [.evtPublish r.arg true])
  | none => (c, [])

/-! ## Timeout policy -/

/-- Set the DUP flag of a re-sent publish frame; other packets are
re-sent unchanged. -/
def setDup : Packet → Packet
  | .publish _ qos retain topic pid payload => .publish true qos retain topic pid payload
  | p => p

/-- The request kinds whose timeout is retried once before failure:
QoS 1/2 publishes, subscribes and unsubscribes. -/
def awaitsAckRetry : Packet → Bool
  | .publish _ _ _ _ _ _ => true
  | .subscribe _ _ _ => true
  | .unsubscribe _ _ => true
  | _ => false

/-- The failure event reported for a request given up after its retry,
carrying the user argument of the request. -/
def failEvt (pkt : Packet) (arg : Nat) : MqttEvt :=
  match pkt with
  | .subscribe _ _ _ => .evtSubscribe arg false
  | .unsubscribe _ _ => .evtUnsubscribe arg false
  | _ => .evtPublish arg false

/-- Modelled from the spec: handling of one request whose ack timeout
expired now. A publish, subscribe or unsubscribe request still in the
sent state is re-sent once (a publish with the DUP flag set) and moves
to the retried state without raising an event; one that already used
its retry is released and reported failed through its event. A CONNECT
timeout forces DISCONNECTED and surfaces the connect event with the
transport-failed status; a keep-alive PING timeout forces DISCONNECTED
and surfaces a disconnect event; neither is retried. Returns the
updated client, the updated slot, the events raised and the re-sent
bytes. -/
def on_request_timeout (c : lwcell_mqtt_client) (r : lwcell_mqtt_request_t)
    (now : Nat) :
    lwcell_mqtt_client × lwcell_mqtt_request_t × List MqttEvt × List Nat :=
  match r.pkt with
  | .connect _ _ =>
    ({ c with conn_state := .LWCELL_MQTT_CONN_DISCONNECTED },
      { r with status := false }, [.evtConnect 256], [])
  | .pingreq =>
    ({ c with conn_state := .LWCELL_MQTT_CONN_DISCONNECTED },
      { r with status := false }, [.evtDisconnect true], [])
  | _ =>
    match r.retry with
    | .retried =>
      (c, { r with status := false }, [failEvt r.pkt r.arg], [])
    | _ =>
      ({ c with tx_buffer := c.tx_buffer ++ encode (setDup r.pkt) },
        { r with retry := .retried, timeout_start_time := now }, [],
        encode (setDup r.pkt))

/-! ## Inbound QoS-2 handshake -/

/-- Inbound messages of the QoS-2 receive path for one connection:
broker publishes (possibly retransmitted with DUP) and PUBREL. -/
inductive InMsg where
  | inPublish (pid : Nat) (dup : Bool) : InMsg
  | inPubrel (pid : Nat) : InMsg
  deriving DecidableEq

/-- Modelled from the spec: inbound QoS-2 handling. On PUBLISH a
PUBREC is sent and the packet id is remembered until PUBREL completes
the four-way handshake with PUBCOMP; a PUBLISH whose id is already
remembered (a broker retransmission) is acknowledged again but not
re-delivered to the user; PUBREL always answers with PUBCOMP and
forgets the id, and never delivers anything. The result is the new
remembered-id set, the events delivered to the user and the packets
sent back. -/
def qos2_step (rem : List Nat) : InMsg → List Nat × List MqttEvt × List Packet
  | .inPublish pid dup =>
    if pid ∈ rem then (rem, [], [.pubrec pid])
    else (pid :: rem, [.evtPublishRecv pid dup], [.pubrec pid])
  | .inPubrel pid => (rem.erase pid, [], [.pubcomp pid])

/-- Run the QoS-2 receive path over a sequence of inbound messages,
collecting the events delivered to the user. -/
def qos2_run (rem : List Nat) : List InMsg → List Nat × List MqttEvt
  | [] => (rem, [])
  | m :: ms =>
    let s := qos2_step rem m
    let t := qos2_run s.1 ms
    (t.1, s.2.1 ++ t.2)

/-- How many publish-received events for a given packet id a list of
delivered events contains. -/
def deliveredCount (pid : Nat) (evts : List MqttEvt) : Nat :=
  (evts.filter (fun e =>
    match e with
    | .evtPublishRecv q _ => q = pid
    | _ => false)).length

/-! ## Connection lifecycle transitions -/

/-- The causes of connection-state transitions. -/
inductive TransEvent where
  | userConnect : TransEvent
  | transportConnected : TransEvent
  | connackAccepted : TransEvent
  | userDisconnect : TransEvent
  | transportClosed : TransEvent
  | transportFailure : TransEvent
  | connectTimeout : TransEvent
  | pingTimeout : TransEvent
  | protocolError : TransEvent
  deriving DecidableEq, Fintype

/-- Modelled from the spec: the connection lifecycle.
DISCONNECTED moves to transport-connecting on a connect call, to
MQTT-connecting once the transport connects, to CONNECTED on an
accepted CONNACK, to DISCONNECTING on a disconnect call (valid from
any state except DISCONNECTED), and back to DISCONNECTED when the
transport closes. A transport failure or fatal protocol error from
any non-disconnected state, a CONNECT timeout and a keep-alive PING
timeout force DISCONNECTED directly. -/
def mqttTransition (s : lwcell_mqtt_state_t) (e : TransEvent) :
    Option lwcell_mqtt_state_t :=
  match s, e with
  | .LWCELL_MQTT_CONN_DISCONNECTED, .userConnect => some .LWCELL_MQTT_CONN_CONNECTING
  | .LWCELL_MQTT_CONN_CONNECTING, .transportConnected => some .LWCELL_MQTT_CONNECTING
  | .LWCELL_MQTT_CONNECTING, .connackAccepted => some .LWCELL_MQTT_CONNECTED
  | .LWCELL_MQTT_CONN_CONNECTING, .userDisconnect => some .LWCELL_MQTT_CONN_DISCONNECTING
  | .LWCELL_MQTT_CONNECTING, .userDisconnect => some .LWCELL_MQTT_CONN_DISCONNECTING
  | .LWCELL_MQTT_CONNECTED, .userDisconnect => some .LWCELL_MQTT_CONN_DISCONNECTING
  | .LWCELL_MQTT_CONN_DISCONNECTING, .transportClosed => some .LWCELL_MQTT_CONN_DISCONNECTED
  | .LWCELL_MQTT_CONNECTING, .connectTimeout => some .LWCELL_MQTT_CONN_DISCONNECTED
  | .LWCELL_MQTT_CONNECTED, .pingTimeout => some .LWCELL_MQTT_CONN_DISCONNECTED
  | s, .transportFailure =>
    if s = .LWCELL_MQTT_CONN_DISCONNECTED then none
    else some .LWCELL_MQTT_CONN_DISCONNECTED
  | s, .protocolError =>
    if s = .LWCELL_MQTT_CONN_DISCONNECTED then none
    else some .LWCELL_MQTT_CONN_DISCONNECTED
  | _, _ => none

/-- Position of each state along the forward lifecycle order of the
spec: DISCONNECTED, CONNECTING(transport), CONNECTING(MQTT),
CONNECTED, DISCONNECTING. -/
def stateIdx : lwcell_mqtt_state_t → Nat
  | .LWCELL_MQTT_CONN_DISCONNECTED => 0
  | .LWCELL_MQTT_CONN_CONNECTING => 1
  | .LWCELL_MQTT_CONNECTING => 2
  | .LWCELL_MQTT_CONNECTED => 3
  | .LWCELL_MQTT_CONN_DISCONNECTING => 4

/-- Immediate successor along the forward lifecycle cycle, the
DISCONNECTING-to-DISCONNECTED closing edge included. -/
def adjacentForward : lwcell_mqtt_state_t → lwcell_mqtt_state_t → Bool
  | .LWCELL_MQTT_CONN_DISCONNECTED, .LWCELL_MQTT_CONN_CONNECTING => true
  | .LWCELL_MQTT_CONN_CONNECTING, .LWCELL_MQTT_CONNECTING => true
  | .LWCELL_MQTT_CONNECTING, .LWCELL_MQTT_CONNECTED => true
  | .LWCELL_MQTT_CONNECTED, .LWCELL_MQTT_CONN_DISCONNECTING => true
  | .LWCELL_MQTT_CONN_DISCONNECTING, .LWCELL_MQTT_CONN_DISCONNECTED => true
  | _, _ => false

/-- A sample client used to instantiate universally-quantified
theorems at concrete inputs. -/
def sampleClient (s : lwcell_mqtt_state_t) (reqs : List lwcell_mqtt_request_t) :
    lwcell_mqtt_client :=
  { conn_state := s, requests := reqs, last_packet_id := 0,
    tx_buffer := [], keep_alive := 60 }

/-- A sample request slot used to instantiate theorems. -/
def sampleRequest (b : Bool) (pid : Nat) (pkt : Packet) (retry : RetryState) :
    lwcell_mqtt_request_t :=
  { status := b, packet_id := pid, arg := 0, expected_sent_len := 0,
    timeout_start_time := 0, retry := retry, pkt := pkt }

end LwcellMqtt

namespace LwcellMqtt

theorem decodeRemLen_encodeRemLen (n : Nat) (hn : n < 268435456) (rest : List Nat) :
    decodeRemLen (encodeRemLen n ++ rest) = .ok n (encodeRemLen n).length := by
  unfold encodeRemLen
  by_cases h1 : n < 128
  · simp only [if_pos h1, List.cons_append, List.nil_append, decodeRemLen, if_pos h1,
      List.length_cons, List.length_nil]
  · by_cases h2 : n < 16384
    · simp only [if_neg h1, if_pos h2, List.cons_append, List.nil_append, decodeRemLen]
      rw [if_neg (by omega), if_pos (by omega)]
      simp only [List.length_cons, List.length_nil]
      congr 1
      omega
    · by_cases h3 : n < 2097152
      · simp only [if_neg h1, if_neg h2, if_pos h3, List.cons_append, List.nil_append,
          decodeRemLen]
        rw [if_neg (by omega), if_neg (by omega), if_pos (by omega)]
        simp only [List.length_cons, List.length_nil]
        congr 1
        omega
      · simp only [if_neg h1, if_neg h2, if_neg h3, List.cons_append, List.nil_append,
          decodeRemLen]
        rw [if_neg (by omega), if_neg (by omega), if_neg (by omega), if_pos (by omega)]
        simp only [List.length_cons, List.length_nil]
        congr 1
        omega

theorem decodeRemLen_take_encodeRemLen (n : Nat) (k : Nat)
    (hk : k < (encodeRemLen n).length) :
    decodeRemLen ((encodeRemLen n).take k) = .needMore := by
  unfold encodeRemLen at *
  by_cases h1 : n < 128
  · simp only [if_pos h1, List.length_cons, List.length_nil] at hk
    interval_cases k
    · simp [decodeRemLen]
  · by_cases h2 : n < 16384
    · simp only [if_neg h1, if_pos h2, List.length_cons, List.length_nil] at hk ⊢
      interval_cases k
      · simp [decodeRemLen]
      · simp only [List.take_succ_cons, List.take_zero, decodeRemLen]
        rw [if_neg (by omega)]
    · by_cases h3 : n < 2097152
      · simp only [if_neg h1, if_neg h2, if_pos h3, List.length_cons, List.length_nil] at hk ⊢
        interval_cases k
        · simp [decodeRemLen]
        · simp only [List.take_succ_cons, List.take_zero, decodeRemLen]
          rw [if_neg (by omega)]
        · simp only [List.take_succ_cons, List.take_zero, decodeRemLen]
          rw [if_neg (by omega), if_neg (by omega)]
      · simp only [if_neg h1, if_neg h2, if_neg h3, List.length_cons, List.length_nil] at hk ⊢
        interval_cases k
        · simp [decodeRemLen]
        · simp only [List.take_succ_cons, List.take_zero, decodeRemLen]
          rw [if_neg (by omega)]
        · simp only [List.take_succ_cons, List.take_zero, decodeRemLen]
          rw [if_neg (by omega), if_neg (by omega)]
        · simp only [List.take_succ_cons, List.take_zero, decodeRemLen]
          rw [if_neg (by omega), if_neg (by omega), if_neg (by omega)]

theorem parseStr16_str16_append (s rest : List Nat) :
    parseStr16 (str16 s ++ rest) = some (s, rest) := by
  have hlen : 256 * (s.length / 256) + s.length % 256 = s.length := by omega
  simp only [str16, List.cons_append, parseStr16, hlen]
  rw [if_neg (by simp only [List.length_append]; omega)]
  rw [List.take_left, List.drop_left]

theorem decodeBody_pktBody (p : Packet) (hp : wfPacket p) :
    decodeBody (pktType p) (pktFlags p) (pktBody p) = some p := by
  cases p with
  | connect cid k =>
    have hs := parseStr16_str16_append cid []
    rw [List.append_nil] at hs
    simp only [pktType, pktFlags, pktBody, be16, List.cons_append, List.nil_append,
      decodeBody, reduceIte, hs, Option.some.injEq, Packet.connect.injEq, true_and]
    omega
  | connack status =>
    simp [pktType, pktFlags, pktBody, decodeBody]
  | publish dup qos retain topic pid payload =>
    obtain ⟨hq, hq0, ht, hpid, hpl⟩ := hp
    rcases dup <;> rcases retain <;> interval_cases qos <;>
      simp only [pktType, pktFlags, pktBody, decodeBody, be16,
        List.cons_append, List.nil_append, List.append_nil] <;>
      norm_num [parseStr16_str16_append] <;>
      first
        | simp [hq0 rfl]
        | omega
  | puback pid =>
    simp only [pktType, pktFlags, pktBody, be16, decodeBody, reduceIte,
      Option.some.injEq, Packet.puback.injEq]
    omega
  | pubrec pid =>
    simp only [pktType, pktFlags, pktBody, be16, decodeBody, reduceIte,
      Option.some.injEq, Packet.pubrec.injEq]
    omega
  | pubrel pid =>
    simp only [pktType, pktFlags, pktBody, be16, decodeBody, reduceIte,
      Option.some.injEq, Packet.pubrel.injEq]
    omega
  | pubcomp pid =>
    simp only [pktType, pktFlags, pktBody, be16, decodeBody, reduceIte,
      Option.some.injEq, Packet.pubcomp.injEq]
    omega
  | subscribe pid topic qos =>
    simp only [pktType, pktFlags, pktBody, be16, decodeBody, reduceIte,
      List.cons_append, List.nil_append, parseStr16_str16_append,
      Option.some.injEq, Packet.subscribe.injEq, and_true, true_and]
    omega
  | suback pid granted =>
    simp only [pktType, pktFlags, pktBody, be16, decodeBody, reduceIte,
      List.cons_append, List.nil_append, Option.some.injEq, Packet.suback.injEq,
      and_true, true_and]
    omega
  | unsubscribe pid topic =>
    have hs := parseStr16_str16_append topic []
    rw [List.append_nil] at hs
    simp only [pktType, pktFlags, pktBody, be16, decodeBody, reduceIte,
      List.cons_append, List.nil_append, hs, Option.some.injEq,
      Packet.unsubscribe.injEq, and_true, true_and]
    omega
  | unsuback pid =>
    simp only [pktType, pktFlags, pktBody, be16, decodeBody, reduceIte,
      Option.some.injEq, Packet.unsuback.injEq]
    omega
  | pingreq => simp [pktType, pktFlags, pktBody, decodeBody]
  | pingresp => simp [pktType, pktFlags, pktBody, decodeBody]
  | disconnect => simp [pktType, pktFlags, pktBody, decodeBody]

theorem pktType_pos (p : Packet) : 1 ≤ pktType p := by
  cases p <;> simp [pktType]

theorem pktType_le (p : Packet) : pktType p ≤ 14 := by
  cases p <;> simp [pktType]

theorem pktFlags_lt (p : Packet) (hp : wfPacket p) : pktFlags p < 16 := by
  cases p with
  | publish dup qos retain topic pid payload =>
    obtain ⟨hq, -⟩ := hp
    rcases dup <;> rcases retain <;> simp [pktFlags] <;> omega
  | _ => simp [pktFlags]

theorem pktBody_length_lt (p : Packet) (hp : wfPacket p) :
    (pktBody p).length < 268435456 := by
  cases p <;> simp only [wfPacket] at hp <;>
    simp only [pktBody, be16, str16, List.length_append, List.length_cons,
      List.length_nil] <;>
    first
      | omega
      | (obtain ⟨h1, h2, h3, h4, h5⟩ := hp
         split <;>
           simp only [List.length_append, List.length_cons, List.length_nil] <;>
           omega)

theorem try_decode_encode (p : Packet) (hp : wfPacket p) :
    try_decode (encode p) = .ok p (encode p).length := by
  have hT1 := pktType_pos p
  have hT2 := pktType_le p
  have hF := pktFlags_lt p hp
  have hbl := pktBody_length_lt p hp
  have hdiv : (16 * pktType p + pktFlags p) / 16 = pktType p := by omega
  have hmod : (16 * pktType p + pktFlags p) % 16 = pktFlags p := by omega
  have henc : encode p = (16 * pktType p + pktFlags p) ::
      (encodeRemLen (pktBody p).length ++ pktBody p) := rfl
  rw [henc]
  simp only [try_decode, hdiv, hmod]
  rw [if_neg (by omega)]
  rw [decodeRemLen_encodeRemLen _ hbl]
  dsimp only
  rw [if_neg (by
    simp only [List.length_cons, List.length_append]
    omega)]
  rw [List.drop_left, List.take_length, decodeBody_pktBody p hp]
  simp only [List.length_cons, List.length_append]
  congr 1
  omega

theorem try_decode_take_encode (p : Packet) (hp : wfPacket p) (k : Nat)
    (hk : k < (encode p).length) :
    try_decode ((encode p).take k) = .needMore := by
  have hT1 := pktType_pos p
  have hT2 := pktType_le p
  have hF := pktFlags_lt p hp
  have hbl := pktBody_length_lt p hp
  have hdiv : (16 * pktType p + pktFlags p) / 16 = pktType p := by omega
  have henc : encode p = (16 * pktType p + pktFlags p) ::
      (encodeRemLen (pktBody p).length ++ pktBody p) := rfl
  rw [henc] at hk ⊢
  simp only [List.length_cons, List.length_append] at hk
  match k with
  | 0 => simp [try_decode]
  | j + 1 =>
    simp only [List.take_succ_cons, try_decode, hdiv]
    rw [if_neg (by omega)]
    by_cases hj : j < (encodeRemLen (pktBody p).length).length
    · rw [List.take_append_of_le_length (by omega)]
      rw [decodeRemLen_take_encodeRemLen _ _ hj]
    · have hj2 : j = (encodeRemLen (pktBody p).length).length +
          (j - (encodeRemLen (pktBody p).length).length) := by omega
      rw [hj2, List.take_append, decodeRemLen_encodeRemLen _ hbl]
      dsimp only
      rw [if_pos]
      simp only [List.length_cons, List.length_append, List.length_take]
      omega

theorem runIncremental_flatten (p : Packet) (hp : wfPacket p) :
    ∀ (chunks : List (List Nat)) (acc : List Nat),
      acc ++ chunks.flatten = encode p →
      runIncremental acc chunks = .ok p (encode p).length := by
  intro chunks
  induction chunks with
  | nil =>
    intro acc hacc
    rw [List.flatten_nil, List.append_nil] at hacc
    subst hacc
    exact try_decode_encode p hp
  | cons c cs ih =>
    intro acc hacc
    rw [List.flatten_cons, ← List.append_assoc] at hacc
    by_cases hfull : (acc ++ c).length < (encode p).length
    · have hpre : acc ++ c = (encode p).take (acc ++ c).length := by
        rw [← hacc, List.take_left]
      have hnm : try_decode (acc ++ c) = .needMore := by
        rw [hpre]
        exact try_decode_take_encode p hp _ hfull
      simp only [runIncremental, hnm]
      exact ih (acc ++ c) hacc
    · have hlen : (acc ++ c ++ cs.flatten).length = (encode p).length := by
        rw [hacc]
      simp only [List.length_append] at hlen hfull
      have hnil : cs.flatten = [] := by
        apply List.eq_nil_of_length_eq_zero
        omega
      rw [hnil, List.append_nil] at hacc
      simp only [runIncremental, hacc, try_decode_encode p hp]

theorem genLoop_spec : ∀ (fuel cand : Nat) (alloc : List Nat) (i : Nat),
    cand < 65536 → genLoop cand alloc fuel = some i →
    i ≠ 0 ∧ i ∉ alloc ∧
      ∃ k, k < fuel ∧ i = (cand + k) % 65536 ∧
        ∀ j, j < k → ((cand + j) % 65536 = 0 ∨ (cand + j) % 65536 ∈ alloc) := by
  intro fuel
  induction fuel with
  | zero =>
    intro cand alloc i hc h
    simp [genLoop] at h
  | succ n ih =>
    intro cand alloc i hc h
    rw [genLoop] at h
    by_cases hcond : cand ≠ 0 ∧ cand ∉ alloc
    · rw [if_pos hcond, Option.some.injEq] at h
      subst h
      refine ⟨hcond.1, hcond.2, 0, by omega, ?_, ?_⟩
      · rw [Nat.add_zero, Nat.mod_eq_of_lt hc]
      · intro j hj
        omega
    · rw [if_neg hcond] at h
      have hc2 : (cand + 1) % 65536 < 65536 := Nat.mod_lt _ (by omega)
      obtain ⟨h1, h2, k, hk, hik, hskip⟩ := ih ((cand + 1) % 65536) alloc i hc2 h
      refine ⟨h1, h2, k + 1, by omega, ?_, ?_⟩
      · rw [hik, Nat.mod_add_mod]
        congr 1
        omega
      · intro j hj
        match j with
        | 0 =>
          rw [Nat.add_zero, Nat.mod_eq_of_lt hc]
          rcases Decidable.not_and_iff_or_not.mp hcond with h0 | hmem
          · exact Or.inl (Decidable.not_not.mp h0)
          · exact Or.inr (Decidable.not_not.mp hmem)
        | j' + 1 =>
          have hs := hskip j' (by omega)
          rw [Nat.mod_add_mod] at hs
          have harg : cand + 1 + j' = cand + (j' + 1) := by omega
          rwa [harg] at hs

theorem genPacketId_spec (last : Nat) (alloc : List Nat) (i : Nat)
    (h : genPacketId last alloc = some i) :
    i ≠ 0 ∧ i ∉ alloc ∧
      ∃ k, k < 65536 ∧ i = (last + 1 + k) % 65536 ∧
        ∀ j, j < k → ((last + 1 + j) % 65536 = 0 ∨ (last + 1 + j) % 65536 ∈ alloc) := by
  have hc : (last + 1) % 65536 < 65536 := Nat.mod_lt _ (by omega)
  obtain ⟨h1, h2, k, hk, hik, hskip⟩ := genLoop_spec 65536 _ alloc i hc h
  refine ⟨h1, h2, k, hk, ?_, ?_⟩
  · rwa [Nat.mod_add_mod] at hik
  · intro j hj
    have hs := hskip j hj
    rwa [Nat.mod_add_mod] at hs

theorem allocIdsL_cons (x : lwcell_mqtt_request_t) (xs : List lwcell_mqtt_request_t) :
    allocIdsL (x :: xs) =
      if x.status then x.packet_id :: allocIdsL xs else allocIdsL xs := by
  by_cases hx : x.status <;> simp [allocIdsL, List.filter_cons, hx]

theorem allocIdsL_setFirstFree_subset (reqs : List lwcell_mqtt_request_t)
    (r : lwcell_mqtt_request_t) :
    allocIdsL (setFirstFree reqs r) ⊆ r.packet_id :: allocIdsL reqs := by
  induction reqs with
  | nil =>
    simp [setFirstFree, allocIdsL]
  | cons x xs ih =>
    by_cases hx : x.status
    · rw [setFirstFree, if_pos hx, allocIdsL_cons, if_pos hx, allocIdsL_cons, if_pos hx]
      intro a ha
      rcases List.mem_cons.mp ha with h | h
      · exact List.mem_cons.mpr (Or.inr (List.mem_cons.mpr (Or.inl h)))
      · rcases List.mem_cons.mp (ih h) with h2 | h2
        · exact List.mem_cons.mpr (Or.inl h2)
        · exact List.mem_cons.mpr (Or.inr (List.mem_cons.mpr (Or.inr h2)))
    · rw [setFirstFree, if_neg hx, allocIdsL_cons, allocIdsL_cons, if_neg hx]
      by_cases hr : r.status
      · rw [if_pos hr]
        exact fun a ha => ha
      · rw [if_neg hr]
        exact fun a ha => List.mem_cons.mpr (Or.inr ha)

theorem allocIdsL_setFirstFree_nodup (reqs : List lwcell_mqtt_request_t)
    (r : lwcell_mqtt_request_t)
    (hnd : (allocIdsL reqs).Nodup) (hni : r.packet_id ∉ allocIdsL reqs) :
    (allocIdsL (setFirstFree reqs r)).Nodup := by
  induction reqs with
  | nil =>
    simp [setFirstFree, allocIdsL]
  | cons x xs ih =>
    by_cases hx : x.status
    · rw [allocIdsL_cons, if_pos hx] at hnd hni
      rw [setFirstFree, if_pos hx, allocIdsL_cons, if_pos hx]
      rw [List.nodup_cons] at hnd ⊢
      refine ⟨?_, ih hnd.2 (fun hmem => hni (List.mem_cons.mpr (Or.inr hmem)))⟩
      intro hmem
      rcases List.mem_cons.mp (allocIdsL_setFirstFree_subset xs r hmem) with h | h
      · exact hni (List.mem_cons.mpr (Or.inl h.symm))
      · exact hnd.1 h
    · rw [allocIdsL_cons, if_neg hx] at hnd hni
      rw [setFirstFree, if_neg hx, allocIdsL_cons]
      by_cases hr : r.status
      · rw [if_pos hr]
        exact List.nodup_cons.mpr ⟨hni, hnd⟩
      · rw [if_neg hr]
        exact hnd

theorem deliveredCount_append (pid : Nat) (a b : List MqttEvt) :
    deliveredCount pid (a ++ b) = deliveredCount pid a + deliveredCount pid b := by
  simp [deliveredCount, List.filter_append]

theorem qos2_run_no_delivery (pid : Nat) :
    ∀ (ms : List InMsg) (rem : List Nat), pid ∈ rem →
      (∀ m ∈ ms, ∃ d, m = InMsg.inPublish pid d) →
      deliveredCount pid (qos2_run rem ms).2 = 0 := by
  intro ms
  induction ms with
  | nil =>
    intro rem hmem hall
    simp [qos2_run, deliveredCount]
  | cons m ms2 ih =>
    intro rem hmem hall
    obtain ⟨d, rfl⟩ := hall m (List.mem_cons_self m ms2)
    simp only [qos2_run, qos2_step, if_pos hmem, List.nil_append]
    exact ih rem hmem (fun m hm => hall m (List.mem_cons_of_mem _ hm))

theorem qos2_run_one_delivery (pid : Nat) (ms : List InMsg) (rem : List Nat)
    (hni : pid ∉ rem) (hne : ms ≠ [])
    (hall : ∀ m ∈ ms, ∃ d, m = InMsg.inPublish pid d) :
    deliveredCount pid (qos2_run rem ms).2 = 1 := by
  cases ms with
  | nil => exact absurd rfl hne
  | cons m ms2 =>
    obtain ⟨d, rfl⟩ := hall m (List.mem_cons_self m ms2)
    simp only [qos2_run, qos2_step, if_neg hni]
    rw [deliveredCount_append]
    rw [qos2_run_no_delivery pid ms2 (pid :: rem) (List.mem_cons_self pid rem)
      (fun m hm => hall m (List.mem_cons_of_mem _ hm))]
    simp [deliveredCount]

theorem find?_eq_none_of_not_alloc (c : lwcell_mqtt_client) (pid : Nat)
    (hni : pid ∉ allocatedIds c) :
    c.requests.find? (fun r => r.status ∧ r.packet_id = pid) = none := by
  rw [List.find?_eq_none]
  intro r hr hcond
  simp only [decide_eq_true_eq] at hcond
  apply hni
  simp only [allocatedIds, allocIdsL, List.mem_map, List.mem_filter]
  exact ⟨r, ⟨hr, hcond.1⟩, hcond.2⟩

/-! ## Claim theorems -/

/-- Claim C1: for every well-formed MQTT control packet of any kind,
decoding the bytes produced by encoding it yields the packet again,
consuming exactly the frame. -/
theorem decode_encode_roundtrip :
    ∀ p : Packet, wfPacket p → try_decode (encode p) = .ok p (encode p).length :=
  fun p hp => try_decode_encode p hp

/-- Witness for claim C1 at a concrete QoS-1 publish packet. -/
theorem decode_encode_roundtrip_witness :
    try_decode (encode (.publish false 1 true [1, 2] 7 [3, 4, 5])) =
      .ok (.publish false 1 true [1, 2] 7 [3, 4, 5])
        (encode (.publish false 1 true [1, 2] 7 [3, 4, 5])).length :=
  decode_encode_roundtrip (.publish false 1 true [1, 2] 7 [3, 4, 5]) (by decide)

/-- Claim C2: the packet-id generator never returns 0 or an id that is
still allocated, so simultaneously-allocated requests never share a
packet id (allocating the fresh id keeps the allocated ids distinct,
and the subscribe operation preserves distinctness of the table); the
id returned is reached from (last + 1) mod 65536 by advancing past
exactly the candidates that are 0 or currently allocated, so a
released id is reached again only after the counter has wrapped past
the allocated ids standing before it. -/
theorem packet_id_generation_unique :
    (∀ (last : Nat) (alloc : List Nat) (i : Nat), genPacketId last alloc = some i →
        i ≠ 0 ∧ i ∉ alloc ∧ (alloc.Nodup → (i :: alloc).Nodup) ∧
        ∃ k, k < 65536 ∧ i = (last + 1 + k) % 65536 ∧
          ∀ j, j < k → ((last + 1 + j) % 65536 = 0 ∨ (last + 1 + j) % 65536 ∈ alloc)) ∧
    (∀ (c : lwcell_mqtt_client) (topic : List Nat) (qos : lwcell_mqtt_qos_t)
        (arg now : Nat), (allocatedIds c).Nodup →
        (allocatedIds (lwcell_mqtt_client_subscribe c topic qos arg now).2.1).Nodup) := by
  constructor
  · intro last alloc i h
    obtain ⟨h1, h2, k, hk, hik, hskip⟩ := genPacketId_spec last alloc i h
    exact ⟨h1, h2, fun hnd => List.nodup_cons.mpr ⟨h2, hnd⟩, k, hk, hik, hskip⟩
  · intro c topic qos arg now hnd
    unfold lwcell_mqtt_client_subscribe
    by_cases h1 : c.conn_state ≠ .LWCELL_MQTT_CONNECTED
    · rw [if_pos h1]
      exact hnd
    · rw [if_neg h1]
      by_cases h2 : requestTableFull c
      · rw [if_pos h2]
        exact hnd
      · rw [if_neg h2]
        cases hg : genPacketId c.last_packet_id (allocatedIds c) with
        | none =>
          simp only
          exact hnd
        | some pid =>
          simp only
          obtain ⟨-, hni, -⟩ := genPacketId_spec _ _ _ hg
          exact allocIdsL_setFirstFree_nodup c.requests _ hnd hni

/-- Witness for claim C2: generating from last id 5 with ids 6 and 7
allocated skips the collisions and yields 8. -/
theorem packet_id_generation_unique_witness :
    (8 : Nat) ≠ 0 ∧ (8 : Nat) ∉ [6, 7] ∧
      (([6, 7] : List Nat).Nodup → ((8 : Nat) :: [6, 7]).Nodup) ∧
      ∃ k, k < 65536 ∧ (8 : Nat) = (5 + 1 + k) % 65536 ∧
        ∀ j, j < k → ((5 + 1 + j) % 65536 = 0 ∨ (5 + 1 + j) % 65536 ∈ [6, 7]) :=
  packet_id_generation_unique.1 5 [6, 7] 8 (by decide)

/-- Claim C3: on the inbound QoS-2 path, a PUBLISH whose packet id is
already remembered (a broker retransmission before the handshake is
completed by PUBCOMP) delivers nothing to the user, a PUBREL
(retransmitted or not) never delivers anything, and a run of broker
publishes of one id with no intervening PUBREL delivers the
publish-received event exactly once. -/
theorem qos2_exactly_once_delivery :
    (∀ (rem : List Nat) (pid : Nat) (dup : Bool), pid ∈ rem →
        (qos2_step rem (.inPublish pid dup)).2.1 = []) ∧
    (∀ (rem : List Nat) (pid : Nat), (qos2_step rem (.inPubrel pid)).2.1 = []) ∧
    (∀ (pid : Nat) (ms : List InMsg) (rem : List Nat), pid ∉ rem → ms ≠ [] →
        (∀ m ∈ ms, ∃ d, m = InMsg.inPublish pid d) →
        deliveredCount pid (qos2_run rem ms).2 = 1) := by
  refine ⟨?_, ?_, ?_⟩
  · intro rem pid dup hmem
    simp [qos2_step, hmem]
  · intro rem pid
    simp [qos2_step]
  · intro pid ms rem hni hne hall
    exact qos2_run_one_delivery pid ms rem hni hne hall

/-- Witness for claim C3: a duplicated broker publish of id 9 with no
intervening PUBREL delivers exactly one event. -/
theorem qos2_exactly_once_delivery_witness :
    deliveredCount 9 (qos2_run [] [.inPublish 9 false, .inPublish 9 true]).2 = 1 :=
  qos2_exactly_once_delivery.2.2 9 [.inPublish 9 false, .inPublish 9 true] []
    (by decide) (by decide) (by decide)

/-- Claim C4: a QoS-0 publish in the connected state succeeds without
touching the request table and raises no event, and PUBACK resolution
raises the publish-confirmation event only for an allocated packet id,
so no confirmation is ever raised for a QoS-0 publish. -/
theorem qos0_publish_no_slot_no_event :
    (∀ (c : lwcell_mqtt_client) (topic payload : List Nat) (retain : Bool)
        (arg now : Nat), c.conn_state = .LWCELL_MQTT_CONNECTED →
        (lwcell_mqtt_client_publish c topic payload .LWCELL_MQTT_QOS_AT_MOST_ONCE
            retain arg now).2.1.requests = c.requests ∧
        (lwcell_mqtt_client_publish c topic payload .LWCELL_MQTT_QOS_AT_MOST_ONCE
            retain arg now).2.2 = [] ∧
        (lwcell_mqtt_client_publish c topic payload .LWCELL_MQTT_QOS_AT_MOST_ONCE
            retain arg now).1 = .ok) ∧
    (∀ (c : lwcell_mqtt_client) (pid : Nat), pid ∉ allocatedIds c →
        process_puback c pid = (c, [])) := by
  constructor
  · intro c topic payload retain arg now hs
    unfold lwcell_mqtt_client_publish
    rw [if_neg (by simp [hs]), if_pos rfl]
    exact ⟨rfl, rfl, rfl⟩
  · intro c pid hni
    unfold process_puback
    rw [find?_eq_none_of_not_alloc c pid hni]

/-- Witness for claim C4 at a concrete connected client. -/
theorem qos0_publish_no_slot_no_event_witness :
    (lwcell_mqtt_client_publish (sampleClient .LWCELL_MQTT_CONNECTED [])
        [1] [2] .LWCELL_MQTT_QOS_AT_MOST_ONCE false 0 0).2.1.requests =
      (sampleClient .LWCELL_MQTT_CONNECTED []).requests ∧
    (lwcell_mqtt_client_publish (sampleClient .LWCELL_MQTT_CONNECTED [])
        [1] [2] .LWCELL_MQTT_QOS_AT_MOST_ONCE false 0 0).2.2 = [] ∧
    (lwcell_mqtt_client_publish (sampleClient .LWCELL_MQTT_CONNECTED [])
        [1] [2] .LWCELL_MQTT_QOS_AT_MOST_ONCE false 0 0).1 = .ok :=
  qos0_publish_no_slot_no_event.1 (sampleClient .LWCELL_MQTT_CONNECTED [])
    [1] [2] false 0 0 rfl

/-- Claim C5: a QoS-1 publish against a full request table is rejected
synchronously with Busy, raises no event and leaves the whole client,
the TX buffer included, unchanged. -/
theorem publish_busy_when_table_full :
    ∀ (c : lwcell_mqtt_client) (topic payload : List Nat) (retain : Bool)
      (arg now : Nat),
      c.conn_state = .LWCELL_MQTT_CONNECTED → requestTableFull c = true →
      lwcell_mqtt_client_publish c topic payload .LWCELL_MQTT_QOS_AT_LEAST_ONCE
          retain arg now = (.busy, c, []) := by
  intro c topic payload retain arg now hs hf
  unfold lwcell_mqtt_client_publish
  rw [if_neg (by simp [hs]), if_neg (by decide), if_pos hf]

/-- Witness for claim C5 at a concrete connected client with a
saturated one-slot table. -/
theorem publish_busy_when_table_full_witness :
    lwcell_mqtt_client_publish
        (sampleClient .LWCELL_MQTT_CONNECTED [sampleRequest true 1 .pingreq .sent])
        [1] [2] .LWCELL_MQTT_QOS_AT_LEAST_ONCE false 0 0 =
      (.busy, sampleClient .LWCELL_MQTT_CONNECTED [sampleRequest true 1 .pingreq .sent],
        []) :=
  publish_busy_when_table_full
    (sampleClient .LWCELL_MQTT_CONNECTED [sampleRequest true 1 .pingreq .sent])
    [1] [2] false 0 0 rfl (by decide)

/-- Claim C6: connect is rejected synchronously with InvalidState
whenever the state is not DISCONNECTED, and subscribe and unsubscribe
are rejected synchronously with InvalidState in every state other than
CONNECTED; in each case no event is delivered and the client is
unchanged. -/
theorem invalid_state_rejection :
    (∀ c : lwcell_mqtt_client, c.conn_state ≠ .LWCELL_MQTT_CONN_DISCONNECTED →
        lwcell_mqtt_client_connect c = (.invalidState, c, [])) ∧
    (∀ (c : lwcell_mqtt_client) (topic : List Nat) (qos : lwcell_mqtt_qos_t)
        (arg now : Nat), c.conn_state ≠ .LWCELL_MQTT_CONNECTED →
        lwcell_mqtt_client_subscribe c topic qos arg now = (.invalidState, c, [])) ∧
    (∀ (c : lwcell_mqtt_client) (topic : List Nat) (arg now : Nat),
        c.conn_state ≠ .LWCELL_MQTT_CONNECTED →
        lwcell_mqtt_client_unsubscribe c topic arg now = (.invalidState, c, [])) := by
  refine ⟨?_, ?_, ?_⟩
  · intro c h
    unfold lwcell_mqtt_client_connect
    rw [if_pos h]
  · intro c topic qos arg now h
    unfold lwcell_mqtt_client_subscribe
    rw [if_pos h]
  · intro c topic arg now h
    unfold lwcell_mqtt_client_unsubscribe
    rw [if_pos h]

/-- Witness for claim C6: a connect call in the connected state is
rejected with InvalidState. -/
theorem invalid_state_rejection_witness :
    lwcell_mqtt_client_connect (sampleClient .LWCELL_MQTT_CONNECTED []) =
      (.invalidState, sampleClient .LWCELL_MQTT_CONNECTED [], []) :=
  invalid_state_rejection.1 (sampleClient .LWCELL_MQTT_CONNECTED []) (by decide)

/-- Claim C7: a publish, subscribe or unsubscribe request that times
out in the sent state is re-sent exactly once (the stored frame, a
publish with the DUP flag set) and marked retried without raising an
event; when the retried request times out again it is released and its
failure event raised with no further re-send; a CONNECT or keep-alive
PING timeout is never retried, re-sends nothing, releases the slot and
forces the connection state to DISCONNECTED. -/
theorem timeout_retry_policy :
    (∀ (c : lwcell_mqtt_client) (r : lwcell_mqtt_request_t) (now : Nat),
        awaitsAckRetry r.pkt = true → r.retry = .sent →
        on_request_timeout c r now =
          ({ c with tx_buffer := c.tx_buffer ++ encode (setDup r.pkt) },
            { r with retry := .retried, timeout_start_time := now }, [],
            encode (setDup r.pkt))) ∧
    (∀ (c : lwcell_mqtt_client) (r : lwcell_mqtt_request_t) (now : Nat),
        awaitsAckRetry r.pkt = true → r.retry = .retried →
        on_request_timeout c r now =
          (c, { r with status := false }, [failEvt r.pkt r.arg], [])) ∧
    (∀ (d : Bool) (q : Nat) (rt : Bool) (t : List Nat) (pid : Nat) (pl : List Nat),
        setDup (.publish d q rt t pid pl) = .publish true q rt t pid pl) ∧
    (∀ (c : lwcell_mqtt_client) (r : lwcell_mqtt_request_t) (now : Nat),
        ((∃ cid k, r.pkt = .connect cid k) ∨ r.pkt = .pingreq) →
        (on_request_timeout c r now).1.conn_state = .LWCELL_MQTT_CONN_DISCONNECTED ∧
        (on_request_timeout c r now).2.2.2 = [] ∧
        (on_request_timeout c r now).2.1.status = false) := by
  refine ⟨?_, ?_, ?_, ?_⟩
  · intro c r now hkind hret
    obtain ⟨st, pid, arg, esl, tst, retry, pkt⟩ := r
    simp only at hkind hret
    subst hret
    cases pkt <;> simp_all [awaitsAckRetry, on_request_timeout]
  · intro c r now hkind hret
    obtain ⟨st, pid, arg, esl, tst, retry, pkt⟩ := r
    simp only at hkind hret
    subst hret
    cases pkt <;> simp_all [awaitsAckRetry, on_request_timeout, failEvt]
  · intro d q rt t pid pl
    rfl
  · intro c r now hkind
    obtain ⟨st, pid, arg, esl, tst, retry, pkt⟩ := r
    rcases hkind with ⟨cid, k, hpkt⟩ | hpkt <;>
      simp only at hpkt <;> subst hpkt <;>
      exact ⟨rfl, rfl, rfl⟩

/-- Witness for claim C7: a QoS-1 publish request in the sent state is
re-sent with DUP and marked retried. -/
theorem timeout_retry_policy_witness :
    on_request_timeout (sampleClient .LWCELL_MQTT_CONNECTED [])
        (sampleRequest true 1 (.publish false 1 false [1] 1 [2]) .sent) 5 =
      ({ sampleClient .LWCELL_MQTT_CONNECTED [] with
          tx_buffer := (sampleClient .LWCELL_MQTT_CONNECTED []).tx_buffer ++
            encode (setDup (sampleRequest true 1
              (.publish false 1 false [1] 1 [2]) .sent).pkt) },
        { sampleRequest true 1 (.publish false 1 false [1] 1 [2]) .sent with
          retry := .retried, timeout_start_time := 5 }, [],
        encode (setDup (sampleRequest true 1
          (.publish false 1 false [1] 1 [2]) .sent).pkt)) :=
  timeout_retry_policy.1 (sampleClient .LWCELL_MQTT_CONNECTED [])
    (sampleRequest true 1 (.publish false 1 false [1] 1 [2]) .sent) 5
    (by decide) rfl

/-- Claim C8 counterexample: a CONNECT timeout moves the state machine
from CONNECTING(MQTT) directly to DISCONNECTED, which is neither a
forward step along the lifecycle cycle nor the transport-failure
exception, so the claim as stated fails. -/
theorem state_forward_only_counterexample :
    mqttTransition .LWCELL_MQTT_CONNECTING .connectTimeout =
      some .LWCELL_MQTT_CONN_DISCONNECTED ∧
    adjacentForward .LWCELL_MQTT_CONNECTING .LWCELL_MQTT_CONN_DISCONNECTED = false ∧
    TransEvent.connectTimeout ≠ TransEvent.transportFailure := by
  decide

/-- Claim C8 (amended): every transition of the connection state
machine either moves strictly forward along the order DISCONNECTED,
CONNECTING(transport), CONNECTING(MQTT), CONNECTED, DISCONNECTING, or
closes the cycle from DISCONNECTING back to DISCONNECTED when the
transport closes, or jumps directly to DISCONNECTED on a transport
failure, a protocol error or a fatal CONNECT or keep-alive PING
timeout. -/
theorem state_transitions_forward_or_fatal :
    ∀ (s : lwcell_mqtt_state_t) (e : TransEvent) (s' : lwcell_mqtt_state_t),
      mqttTransition s e = some s' →
      stateIdx s < stateIdx s' ∨
      (s = .LWCELL_MQTT_CONN_DISCONNECTING ∧ s' = .LWCELL_MQTT_CONN_DISCONNECTED ∧
        e = .transportClosed) ∨
      (s' = .LWCELL_MQTT_CONN_DISCONNECTED ∧
        (e = .transportFailure ∨ e = .protocolError ∨ e = .connectTimeout ∨
          e = .pingTimeout)) := by
  decide

/-- Witness for the amended claim C8 at the connect transition. -/
theorem state_transitions_forward_or_fatal_witness :
    stateIdx .LWCELL_MQTT_CONN_DISCONNECTED < stateIdx .LWCELL_MQTT_CONN_CONNECTING ∨
    (lwcell_mqtt_state_t.LWCELL_MQTT_CONN_DISCONNECTED =
        .LWCELL_MQTT_CONN_DISCONNECTING ∧
      lwcell_mqtt_state_t.LWCELL_MQTT_CONN_CONNECTING =
        .LWCELL_MQTT_CONN_DISCONNECTED ∧
      TransEvent.userConnect = .transportClosed) ∨
    (lwcell_mqtt_state_t.LWCELL_MQTT_CONN_CONNECTING =
        .LWCELL_MQTT_CONN_DISCONNECTED ∧
      (TransEvent.userConnect = .transportFailure ∨
        TransEvent.userConnect = .protocolError ∨
        TransEvent.userConnect = .connectTimeout ∨
        TransEvent.userConnect = .pingTimeout)) :=
  state_transitions_forward_or_fatal .LWCELL_MQTT_CONN_DISCONNECTED .userConnect
    .LWCELL_MQTT_CONN_CONNECTING (by decide)

/-- Claim C10: the is-connected query is nonzero exactly when the
connection state is the fully-connected MQTT state, and it is 0 in
every other state, the connecting and disconnecting states included. -/
theorem is_connected_iff :
    ∀ c : lwcell_mqtt_client,
      (lwcell_mqtt_client_is_connected c ≠ 0 ↔
        c.conn_state = .LWCELL_MQTT_CONNECTED) ∧
      (c.conn_state ≠ .LWCELL_MQTT_CONNECTED →
        lwcell_mqtt_client_is_connected c = 0) := by
  intro c
  unfold lwcell_mqtt_client_is_connected
  by_cases h : c.conn_state = .LWCELL_MQTT_CONNECTED <;> simp [h]

/-- Witness for claim C10 at a connected client. -/
theorem is_connected_iff_witness :
    lwcell_mqtt_client_is_connected (sampleClient .LWCELL_MQTT_CONNECTED []) ≠ 0 :=
  (is_connected_iff (sampleClient .LWCELL_MQTT_CONNECTED [])).1.mpr rfl

/-- Claim C9: a complete frame split into any sequence of partial
deliveries decodes incrementally to exactly the one-shot result, and
every strict prefix of a frame makes the decoder report that more
data is needed, consuming nothing. -/
theorem fragmentation_invariance :
    (∀ (p : Packet) (chunks : List (List Nat)), wfPacket p →
        chunks.flatten = encode p →
        runIncremental [] chunks = .ok p (encode p).length) ∧
    (∀ (p : Packet) (k : Nat), wfPacket p → k < (encode p).length →
        try_decode ((encode p).take k) = .needMore) := by
  constructor
  · intro p chunks hp hj
    apply runIncremental_flatten p hp chunks []
    rw [List.nil_append, hj]
  · intro p k hp hk
    exact try_decode_take_encode p hp k hk

/-- Witness for claim C9: a PINGREQ frame delivered one byte at a time
decodes to the same result as the whole frame. -/
theorem fragmentation_invariance_witness :
    runIncremental [] [[192], [0]] = .ok .pingreq (encode .pingreq).length ∧
    try_decode ((encode Packet.pingreq).take 1) = .needMore :=
  ⟨fragmentation_invariance.1 .pingreq [[192], [0]] (by decide) (by decide),
    fragmentation_invariance.2 .pingreq 1 (by decide) (by decide)⟩

end LwcellMqtt
